import Mathlib

/-!
Shallow embedding of the windowed statistics core of
src/sqlite-stddev-extension.c.

Doubles are modelled as exact rationals; the physical backing array is
modelled as a total function from physical index to value (uninitialized
memory reads as 0, a slot the code never reads under the invariant).
C `NAN` results of the rational-valued calculation functions are modelled
as `none`; the NaN/Inf sanitization path is additionally modelled over an
extended-double type `EDouble` with a real payload, because the standard
deviation functions apply a square root.
-/

namespace StddevExt

/-- The dynamic type of the single SQLite argument of a step or inverse
call, as distinguished by the code via sqlite3_value_type:
SQLITE_NULL, SQLITE_INTEGER, SQLITE_FLOAT, and the non-numeric types
SQLITE_TEXT and SQLITE_BLOB. -/
inductive SQLiteValue where
  | null
  | integer (i : ℤ)
  | float (q : ℚ)
  | text
  | blob
deriving DecidableEq

/-- Whether the value type is SQLITE_INTEGER or SQLITE_FLOAT, the
numeric types accepted by stats_step. -/
def SQLiteValue.isNumeric : SQLiteValue → Bool
  | .integer _ => true
  | .float _ => true
  | _ => false

/-- The numeric conversion sqlite3_value_double, restricted to the
numeric cases the code applies it to (non-numeric cases are never
reached because the type check precedes the conversion). -/
def sqlite_value_double : SQLiteValue → ℚ
  | .integer i => (i : ℚ)
  | .float q => q
  | _ => 0

/-- The WindowStatsData struct: a circular buffer of doubles plus the
running accumulators.  The C `double *values` array is modelled as a
total function from physical index to value. -/
structure WindowStatsData where
  values : ℕ → ℚ
  count : ℕ
  capacity : ℕ
  head : ℕ
  tail : ℕ
  sum : ℚ
  sum_sq : ℚ

/-- INITIAL_CAPACITY from the configuration constants. -/
def INITIAL_CAPACITY : ℕ := 100

/-- CAPACITY_GROWTH_FACTOR from the configuration constants. -/
def CAPACITY_GROWTH_FACTOR : ℕ := 2

/-- get_circular_value: read the value at a logical index. -/
def get_circular_value (data : WindowStatsData) (logical_index : ℕ) : ℚ :=
  data.values ((data.head + logical_index) % data.capacity)

/-- add_to_circular_buffer: write at the tail, advance the tail modulo
the capacity, and increment the count. -/
def add_to_circular_buffer (data : WindowStatsData) (value : ℚ) : WindowStatsData :=
  { data with
    values := fun j => if j = data.tail then value else data.values j
    tail := (data.tail + 1) % data.capacity
    count := data.count + 1 }

/-- remove_from_circular_buffer: if the buffer is empty return 0.0 and
leave the state alone; otherwise return the value at the head, advance
the head modulo the capacity, and decrement the count. -/
def remove_from_circular_buffer (data : WindowStatsData) : WindowStatsData × ℚ :=
  if data.count = 0 then (data, 0)
  else
    ({ data with head := (data.head + 1) % data.capacity, count := data.count - 1 },
      data.values data.head)

/-- calculate_variance_sample in exact arithmetic: `none` models the
C `NAN` returned when count < 2, otherwise
(sum_sq / n - mean^2) * (n / (n - 1)). -/
def calculate_variance_sample (data : WindowStatsData) : Option ℚ :=
  if data.count < 2 then none
  else
    let mean : ℚ := data.sum / (data.count : ℚ)
    let variance_pop : ℚ := data.sum_sq / (data.count : ℚ) - mean * mean
    some (variance_pop * ((data.count : ℚ) / ((data.count : ℚ) - 1)))

/-- calculate_variance_population in exact arithmetic: `none` models the
C `NAN` returned when count < 1, otherwise sum_sq / n - mean^2. -/
def calculate_variance_population (data : WindowStatsData) : Option ℚ :=
  if data.count < 1 then none
  else
    let mean : ℚ := data.sum / (data.count : ℚ)
    some (data.sum_sq / (data.count : ℚ) - mean * mean)

/-- init_window_stats_data with a successful allocation: capacity
INITIAL_CAPACITY, everything else zeroed; the freshly malloc-ed array is
uninitialized and modelled as all zeros (never read while count = 0). -/
def init_window_stats_data : WindowStatsData :=
  { values := fun _ => 0
    count := 0
    capacity := INITIAL_CAPACITY
    head := 0
    tail := 0
    sum := 0
    sum_sq := 0 }

/-- grow_stats_buffer with a successful allocation: the new array of
capacity `capacity * CAPACITY_GROWTH_FACTOR` holds the logical contents
in physical slots 0..count-1 (the remaining slots are uninitialized,
modelled as 0), the head becomes 0 and the tail becomes count. -/
def grow_stats_buffer (data : WindowStatsData) : WindowStatsData :=
  { data with
    values := fun j => if j < data.count then get_circular_value data j else 0
    capacity := data.capacity * CAPACITY_GROWTH_FACTOR
    head := 0
    tail := data.count }

/-- The two error conditions stats_step can report:
sqlite3_result_error with the invalid-data-type message, and
sqlite3_result_error_nomem. -/
inductive StepError where
  | invalidInput
  | outOfMemory
deriving DecidableEq

/-- The body of stats_step on an initialized context, in source order:
NULL check, numeric type check, growth when count >= capacity (gated on
the allocation outcome `allocOk`), then the buffer write and the
accumulator updates.  Returns the context as left by the call together
with the error reported, if any. -/
def stats_step_go (allocOk : Bool) (data : WindowStatsData) (arg : SQLiteValue) :
    Option WindowStatsData × Option StepError :=
  if arg = SQLiteValue.null then (some data, none)
  else if arg.isNumeric = false then (some data, some StepError.invalidInput)
  else
    let grown : Option WindowStatsData :=
      if data.capacity ≤ data.count then
        if allocOk then some (grow_stats_buffer data) else none
      else some data
    match grown with
    | none => (some data, some StepError.outOfMemory)
    | some d1 =>
      let value := sqlite_value_double arg
      let d2 := add_to_circular_buffer d1 value
      (some { d2 with sum := d2.sum + value, sum_sq := d2.sum_sq + value * value }, none)

/-- stats_step: on the first call (values still NULL, modelled as a
`none` context) the context is initialized first, which fails with
out-of-memory when the allocation fails; then the body runs.  `allocOk`
is the outcome of whichever malloc this call attempts. -/
def stats_step (allocOk : Bool) (ctx : Option WindowStatsData) (arg : SQLiteValue) :
    Option WindowStatsData × Option StepError :=
  match ctx with
  | none =>
    if allocOk then stats_step_go allocOk init_window_stats_data arg
    else (none, some StepError.outOfMemory)
  | some data => stats_step_go allocOk data arg

/-- stats_inverse: a no-op on an uninitialized context, an empty buffer,
or a NULL argument; otherwise remove the oldest value and subtract it
and its square from the accumulators. -/
def stats_inverse (ctx : Option WindowStatsData) (arg : SQLiteValue) :
    Option WindowStatsData :=
  match ctx with
  | none => none
  | some data =>
    if data.count = 0 then some data
    else if arg = SQLiteValue.null then some data
    else
      let r := remove_from_circular_buffer data
      some { r.1 with sum := r.1.sum - r.2, sum_sq := r.1.sum_sq - r.2 * r.2 }

/-- stats_value_helper at the exact-rational level: NULL result on an
uninitialized context or when count < min_count; otherwise the computed
statistic goes through set_result, which maps the `NAN` case (`none`)
to NULL and a finite rational to itself. -/
def stats_value_helper (func : WindowStatsData → Option ℚ) (min_count : ℕ)
    (ctx : Option WindowStatsData) : Option ℚ :=
  match ctx with
  | none => none
  | some data => if data.count < min_count then none else func data

/-- variance_samp_value: stats_value_helper with calculate_variance_sample
and min_count 2. -/
def variance_samp_value (ctx : Option WindowStatsData) : Option ℚ :=
  stats_value_helper calculate_variance_sample 2 ctx

/-- variance_pop_value: stats_value_helper with
calculate_variance_population and min_count 1. -/
def variance_pop_value (ctx : Option WindowStatsData) : Option ℚ :=
  stats_value_helper calculate_variance_population 1 ctx

/-- An extended double for the results that can be NaN or infinite: a
finite real, NaN, or a signed infinity.  This layer carries real
payloads because the standard deviation functions apply a square root. -/
inductive EDouble where
  | finite (x : ℝ)
  | nan
  | inf (positive : Bool)

/-- The C library sqrt on extended doubles: NaN on NaN and on negative
arguments, positive infinity on positive infinity, NaN on negative
infinity, and the real square root on a nonnegative finite argument. -/
noncomputable def sqrtD : EDouble → EDouble
  | .finite x => if x < 0 then .nan else .finite (Real.sqrt x)
  | .nan => .nan
  | .inf b => if b then .inf true else .nan

/-- calculate_variance_sample at the extended-double level: NaN when
count < 2, otherwise the finite exact value of the same formula. -/
noncomputable def calculate_variance_sampleD (data : WindowStatsData) : EDouble :=
  if data.count < 2 then .nan
  else
    let mean : ℝ := (data.sum : ℝ) / (data.count : ℝ)
    let variance_pop : ℝ := (data.sum_sq : ℝ) / (data.count : ℝ) - mean * mean
    .finite (variance_pop * ((data.count : ℝ) / ((data.count : ℝ) - 1)))

/-- calculate_variance_population at the extended-double level: NaN when
count < 1, otherwise the finite exact value of the same formula. -/
noncomputable def calculate_variance_populationD (data : WindowStatsData) : EDouble :=
  if data.count < 1 then .nan
  else
    let mean : ℝ := (data.sum : ℝ) / (data.count : ℝ)
    .finite ((data.sum_sq : ℝ) / (data.count : ℝ) - mean * mean)

/-- calculate_stddev_sample: NaN if the sample variance is NaN,
otherwise its square root. -/
noncomputable def calculate_stddev_sampleD (data : WindowStatsData) : EDouble :=
  match calculate_variance_sampleD data with
  | .nan => .nan
  | v => sqrtD v

/-- calculate_stddev_population: NaN if the population variance is NaN,
otherwise its square root. -/
noncomputable def calculate_stddev_populationD (data : WindowStatsData) : EDouble :=
  match calculate_variance_populationD data with
  | .nan => .nan
  | v => sqrtD v

/-- set_result: NaN and infinite results become the SQL NULL marker
(`none`); a finite result is reported as that number. -/
def set_resultD : EDouble → Option ℝ
  | .finite x => some x
  | .nan => none
  | .inf _ => none

/-- stats_value_helper at the extended-double level. -/
noncomputable def stats_value_helperD (func : WindowStatsData → EDouble) (min_count : ℕ)
    (ctx : Option WindowStatsData) : Option ℝ :=
  match ctx with
  | none => none
  | some data => if data.count < min_count then none else set_resultD (func data)

/-- stddev_samp_value at the extended-double level. -/
noncomputable def stddev_samp_valueD (ctx : Option WindowStatsData) : Option ℝ :=
  stats_value_helperD calculate_stddev_sampleD 2 ctx

/-- stddev_pop_value at the extended-double level. -/
noncomputable def stddev_pop_valueD (ctx : Option WindowStatsData) : Option ℝ :=
  stats_value_helperD calculate_stddev_populationD 1 ctx

/-- variance_samp_value at the extended-double level. -/
noncomputable def variance_samp_valueD (ctx : Option WindowStatsData) : Option ℝ :=
  stats_value_helperD calculate_variance_sampleD 2 ctx

/-- variance_pop_value at the extended-double level. -/
noncomputable def variance_pop_valueD (ctx : Option WindowStatsData) : Option ℝ :=
  stats_value_helperD calculate_variance_populationD 1 ctx

/-- One driver call into the aggregator: a step with the given
allocation outcome and argument, or an inverse with the given
argument. -/
inductive StatsOp where
  | step (allocOk : Bool) (arg : SQLiteValue)
  | inverse (arg : SQLiteValue)
deriving DecidableEq

/-- The allocation outcome attached to an operation (inverse calls
allocate nothing, so they carry `true`). -/
def StatsOp.allocOk : StatsOp → Bool
  | .step a _ => a
  | .inverse _ => true

/-- Apply one driver call to a context. -/
def runOp (ctx : Option WindowStatsData) : StatsOp → Option WindowStatsData
  | .step a arg => (stats_step a ctx arg).1
  | .inverse arg => stats_inverse ctx arg

/-- Run a sequence of driver calls starting from the empty
(uninitialized) aggregator. -/
def runOps (ops : List StatsOp) : Option WindowStatsData :=
  ops.foldl runOp none

/-- The logical contents of the circular buffer, oldest first. -/
def logicalContents (data : WindowStatsData) : List ℚ :=
  (List.range data.count).map (get_circular_value data)

/-- The structural circular-buffer invariant: positive capacity, count
within capacity, head in range, and the tail sitting count slots after
the head modulo the capacity. -/
def BufInv (data : WindowStatsData) : Prop :=
  0 < data.capacity ∧ data.count ≤ data.capacity ∧ data.head < data.capacity ∧
    data.tail = (data.head + data.count) % data.capacity

instance (data : WindowStatsData) : Decidable (BufInv data) := by
  unfold BufInv; infer_instance

/-- The accumulator invariant: sum and sum_sq are the exact sum and sum
of squares of the buffered values. -/
def SumInv (data : WindowStatsData) : Prop :=
  data.sum = (logicalContents data).sum ∧
    data.sum_sq = ((logicalContents data).map (fun x => x * x)).sum

instance (data : WindowStatsData) : Decidable (SumInv data) := by
  unfold SumInv; infer_instance

/-- The full aggregator invariant. -/
def StatsInv (data : WindowStatsData) : Prop :=
  BufInv data ∧ SumInv data

instance (data : WindowStatsData) : Decidable (StatsInv data) := by
  unfold StatsInv; infer_instance

/-- The invariant lifted to a possibly-uninitialized context. -/
def OptStatsInv : Option WindowStatsData → Prop
  | none => True
  | some data => StatsInv data

/-- The reference model of one driver call on a plain FIFO list:
a step appends the numeric value at the back (NULL and non-numeric
arguments change nothing), an inverse drops the front unless the list
is empty or the argument is NULL. -/
def modelOp (l : List ℚ) : StatsOp → List ℚ
  | .step _ arg => if arg.isNumeric then l ++ [sqlite_value_double arg] else l
  | .inverse arg =>
      if l = [] then l
      else if arg = SQLiteValue.null then l
      else l.drop 1

/-- Run the reference FIFO model over a sequence of driver calls. -/
def modelRun (ops : List StatsOp) : List ℚ :=
  ops.foldl modelOp []

/-- Correspondence between a context and the reference FIFO list: an
uninitialized context corresponds to the empty list, an initialized one
satisfies the invariant and holds exactly the model list. -/
def StateOK : Option WindowStatsData → List ℚ → Prop
  | none, l => l = []
  | some data, l => StatsInv data ∧ logicalContents data = l

/-- Whether this step call takes the growth path: the context is (or
becomes) initialized, the argument is numeric, and the buffer is full. -/
def stepGrows (allocOk : Bool) (ctx : Option WindowStatsData) (arg : SQLiteValue) : Bool :=
  let dOpt : Option WindowStatsData :=
    match ctx with
    | none => if allocOk then some init_window_stats_data else none
    | some data => some data
  match dOpt with
  | none => false
  | some data => arg.isNumeric && decide (data.capacity ≤ data.count)

/-- The number of growth events over a run of driver calls. -/
def growthCount (ops : List StatsOp) : ℕ :=
  (ops.foldl
    (fun (p : Option WindowStatsData × ℕ) op =>
      (runOp p.1 op,
        p.2 +
          match op with
          | .step a arg => if stepGrows a p.1 arg then 1 else 0
          | .inverse _ => 0))
    (none, 0)).2

/-- Direct textbook sample variance over a list of values, following the
specification formula Σ(x − mean)² / (n − 1). -/
def directVarianceSample (l : List ℚ) : ℚ :=
  (l.map (fun x => (x - l.sum / (l.length : ℚ)) ^ 2)).sum / ((l.length : ℚ) - 1)

/-- Direct textbook population variance over a list of values, following
the specification formula Σ(x − mean)² / n. -/
def directVariancePop (l : List ℚ) : ℚ :=
  (l.map (fun x => (x - l.sum / (l.length : ℚ)) ^ 2)).sum / (l.length : ℚ)

/-- The 101 successful numeric inserts of the growth-transparency
scenario: the values 0, 1, ..., 100 against INITIAL_CAPACITY = 100. -/
def ops101 : List StatsOp :=
  (List.range 101).map (fun i => StatsOp.step true (SQLiteValue.integer (i : ℤ)))

/-- The fully-applied state produced by the insert path of stats_step_go:
the buffer write followed by the accumulator updates. -/
def insertState (d : WindowStatsData) (v : ℚ) : WindowStatsData :=
  let d2 := add_to_circular_buffer d v
  { d2 with sum := d2.sum + v, sum_sq := d2.sum_sq + v * v }

/-- The fully-applied state produced by the eviction path of
stats_inverse: the head removal followed by the accumulator updates. -/
def removeState (d : WindowStatsData) : WindowStatsData :=
  { d with
    head := (d.head + 1) % d.capacity
    count := d.count - 1
    sum := d.sum - d.values d.head
    sum_sq := d.sum_sq - d.values d.head * d.values d.head }

/-- The accumulator invariant lifted to a possibly-uninitialized
context (trivially true when no buffer exists yet). -/
def SumOK : Option WindowStatsData → Prop
  | none => True
  | some d => d.sum = (logicalContents d).sum ∧
      d.sum_sq = ((logicalContents d).map (fun x => x * x)).sum

/-- A concrete reachable state holding the single value 7. -/
def exState1 : WindowStatsData :=
  { values := fun j => if j = 0 then 7 else 0
    count := 1
    capacity := 100
    head := 0
    tail := 1
    sum := 7
    sum_sq := 49 }

/-- A concrete reachable state holding the two values 1 and 3. -/
def exState2 : WindowStatsData :=
  { values := fun j => if j = 0 then 1 else if j = 1 then 3 else 0
    count := 2
    capacity := 100
    head := 0
    tail := 2
    sum := 4
    sum_sq := 10 }

/-- A concrete full buffer of capacity 2 holding the values 1 and 2. -/
def exFullState : WindowStatsData :=
  { values := fun j => if j = 0 then 1 else if j = 1 then 2 else 0
    count := 2
    capacity := 2
    head := 0
    tail := 0
    sum := 3
    sum_sq := 5 }

/-- A state with one buffered value whose accumulators make the computed
population variance negative, so that its square root is NaN. -/
def exNanState : WindowStatsData :=
  { values := fun _ => 0
    count := 1
    capacity := 100
    head := 0
    tail := 1
    sum := 1
    sum_sq := 0 }

/-- A state holding the single value 1 whose sum_sq accumulator has
absorbed a rounding error of one part in 10^17, forcing the computed
population variance to be exactly -(1/10^17). -/
def exNegState : WindowStatsData :=
  { values := fun _ => 1
    count := 1
    capacity := 100
    head := 0
    tail := 1
    sum := 1
    sum_sq := 1 - 1 / 10 ^ 17 }

/-- The sliding-window scenario of the specification: insert 1..5, then
evict the oldest element, leaving the contents 2, 3, 4, 5. -/
def opsSlide : List StatsOp :=
  [StatsOp.step true (SQLiteValue.integer 1), StatsOp.step true (SQLiteValue.integer 2),
    StatsOp.step true (SQLiteValue.integer 3), StatsOp.step true (SQLiteValue.integer 4),
    StatsOp.step true (SQLiteValue.integer 5), StatsOp.inverse (SQLiteValue.integer 1)]

/-! ### Circular-buffer lemmas -/

lemma length_logicalContents (d : WindowStatsData) :
    (logicalContents d).length = d.count := by
  simp [logicalContents]

lemma map_range_congr (f g : ℕ → ℚ) (n : ℕ) (h : ∀ i, i < n → f i = g i) :
    (List.range n).map f = (List.range n).map g := by
  induction n with
  | zero => rfl
  | succ n ih =>
      rw [List.range_succ, List.map_append, List.map_append,
        ih (fun i hi => h i (by omega))]
      simp [h n (by omega)]

lemma mod_index_ne (cap hd i count : ℕ) (hi : i < count) (hc : count < cap) :
    (hd + i) % cap ≠ (hd + count) % cap := by
  intro h
  have h2 : i ≡ count [MOD cap] := Nat.ModEq.add_left_cancel' hd h
  rw [Nat.ModEq, Nat.mod_eq_of_lt (lt_trans hi hc), Nat.mod_eq_of_lt hc] at h2
  omega

lemma logicalContents_setSums (d : WindowStatsData) (s s2 : ℚ) :
    logicalContents { d with sum := s, sum_sq := s2 } = logicalContents d := rfl

lemma bufInv_setSums (d : WindowStatsData) (s s2 : ℚ) :
    BufInv { d with sum := s, sum_sq := s2 } ↔ BufInv d := Iff.rfl

lemma bufInv_add (d : WindowStatsData) (v : ℚ) (hb : BufInv d)
    (hlt : d.count < d.capacity) : BufInv (add_to_circular_buffer d v) := by
  obtain ⟨hcap, hcnt, hhead, htail⟩ := hb
  refine ⟨hcap, hlt, hhead, ?_⟩
  show (d.tail + 1) % d.capacity = (d.head + (d.count + 1)) % d.capacity
  rw [htail, Nat.mod_add_mod]
  congr 1

lemma logicalContents_add (d : WindowStatsData) (v : ℚ) (hb : BufInv d)
    (hlt : d.count < d.capacity) :
    logicalContents (add_to_circular_buffer d v) = logicalContents d ++ [v] := by
  obtain ⟨hcap, hcnt, hhead, htail⟩ := hb
  show (List.range (d.count + 1)).map
      (fun i => if (d.head + i) % d.capacity = d.tail then v
        else d.values ((d.head + i) % d.capacity))
    = (List.range d.count).map (fun i => d.values ((d.head + i) % d.capacity)) ++ [v]
  rw [List.range_succ, List.map_append]
  congr 1
  · refine map_range_congr _ _ _ (fun i hi => ?_)
    exact if_neg
      (fun h => mod_index_ne d.capacity d.head i d.count hi hlt (h.trans htail))
  · simp [htail]

lemma remove_eq (d : WindowStatsData) (hpos : 0 < d.count) :
    remove_from_circular_buffer d =
      ({ d with head := (d.head + 1) % d.capacity, count := d.count - 1 },
        d.values d.head) := by
  unfold remove_from_circular_buffer
  rw [if_neg (by omega)]

lemma remove_bufInv (d : WindowStatsData) (hb : BufInv d) (hpos : 0 < d.count) :
    BufInv (remove_from_circular_buffer d).1 := by
  obtain ⟨hcap, hcnt, hhead, htail⟩ := hb
  rw [remove_eq d hpos]
  refine ⟨hcap, ?_, ?_, ?_⟩
  · show d.count - 1 ≤ d.capacity
    omega
  · show (d.head + 1) % d.capacity < d.capacity
    exact Nat.mod_lt _ hcap
  · show d.tail = ((d.head + 1) % d.capacity + (d.count - 1)) % d.capacity
    rw [Nat.mod_add_mod, htail]
    congr 1
    omega

lemma remove_contents (d : WindowStatsData) (hb : BufInv d) (hpos : 0 < d.count) :
    logicalContents d =
      (remove_from_circular_buffer d).2 ::
        logicalContents (remove_from_circular_buffer d).1 := by
  obtain ⟨hcap, hcnt, hhead, htail⟩ := hb
  rw [remove_eq d hpos]
  obtain ⟨n, hn⟩ : ∃ n, d.count = n + 1 := ⟨d.count - 1, by omega⟩
  show (List.range d.count).map (fun i => d.values ((d.head + i) % d.capacity))
    = d.values d.head ::
      (List.range (d.count - 1)).map
        (fun i => d.values (((d.head + 1) % d.capacity + i) % d.capacity))
  rw [hn]
  rw [List.range_succ_eq_map, List.map_cons, List.map_map]
  simp only [Nat.add_sub_cancel]
  congr 1
  · rw [Nat.add_zero, Nat.mod_eq_of_lt hhead]
  · refine map_range_congr _ _ _ (fun i hi => ?_)
    simp only [Function.comp]
    rw [Nat.mod_add_mod]
    congr 2
    omega

lemma grow_bufInv (d : WindowStatsData) (hb : BufInv d) :
    BufInv (grow_stats_buffer d) := by
  obtain ⟨hcap, hcnt, hhead, htail⟩ := hb
  have hcap2 : d.capacity < d.capacity * CAPACITY_GROWTH_FACTOR := by
    unfold CAPACITY_GROWTH_FACTOR
    omega
  refine ⟨?_, ?_, ?_, ?_⟩
  · show 0 < d.capacity * CAPACITY_GROWTH_FACTOR
    omega
  · show d.count ≤ d.capacity * CAPACITY_GROWTH_FACTOR
    omega
  · show 0 < d.capacity * CAPACITY_GROWTH_FACTOR
    omega
  · show d.count = (0 + d.count) % (d.capacity * CAPACITY_GROWTH_FACTOR)
    rw [Nat.zero_add, Nat.mod_eq_of_lt (by omega)]

lemma grow_contents (d : WindowStatsData) (hb : BufInv d) :
    logicalContents (grow_stats_buffer d) = logicalContents d := by
  obtain ⟨hcap, hcnt, hhead, htail⟩ := hb
  have hcap2 : d.capacity < d.capacity * CAPACITY_GROWTH_FACTOR := by
    unfold CAPACITY_GROWTH_FACTOR
    omega
  show (List.range d.count).map
      (fun i => if (0 + i) % (d.capacity * CAPACITY_GROWTH_FACTOR) < d.count
        then get_circular_value d ((0 + i) % (d.capacity * CAPACITY_GROWTH_FACTOR))
        else 0)
    = (List.range d.count).map (get_circular_value d)
  refine map_range_congr _ _ _ (fun i hi => ?_)
  rw [Nat.zero_add, Nat.mod_eq_of_lt (by omega), if_pos hi]

/-! ### Step and inverse lemmas -/

lemma statsInv_init : StatsInv init_window_stats_data := by decide

lemma isNumeric_ne_null (arg : SQLiteValue) (hn : arg.isNumeric = true) :
    ¬ arg = SQLiteValue.null := by
  intro he
  subst he
  simp [SQLiteValue.isNumeric] at hn

lemma insert_spec (d : WindowStatsData) (v : ℚ) (h : StatsInv d)
    (hroom : d.count < d.capacity) :
    StatsInv (insertState d v) ∧
      logicalContents (insertState d v) = logicalContents d ++ [v] := by
  obtain ⟨hb, hs1, hs2⟩ := h
  have hc : logicalContents (insertState d v) = logicalContents d ++ [v] :=
    logicalContents_add d v hb hroom
  refine ⟨⟨bufInv_add d v hb hroom, ?_, ?_⟩, hc⟩
  · show d.sum + v = (logicalContents (insertState d v)).sum
    rw [hc, List.sum_append, hs1]
    simp
  · show d.sum_sq + v * v = ((logicalContents (insertState d v)).map (fun x => x * x)).sum
    rw [hc, List.map_append, List.sum_append, hs2]
    simp

lemma step_go_null (a : Bool) (d : WindowStatsData) :
    stats_step_go a d SQLiteValue.null = (some d, none) := rfl

lemma step_go_invalid (a : Bool) (d : WindowStatsData) (arg : SQLiteValue)
    (hnn : ¬ arg = SQLiteValue.null) (hn : arg.isNumeric = false) :
    stats_step_go a d arg = (some d, some StepError.invalidInput) := by
  simp [stats_step_go, hnn, hn]

lemma step_go_nomem (d : WindowStatsData) (arg : SQLiteValue)
    (hn : arg.isNumeric = true) (hfull : d.capacity ≤ d.count) :
    stats_step_go false d arg = (some d, some StepError.outOfMemory) := by
  simp [stats_step_go, isNumeric_ne_null arg hn, hn, hfull]

lemma step_go_room (a : Bool) (d : WindowStatsData) (arg : SQLiteValue)
    (hn : arg.isNumeric = true) (hroom : d.count < d.capacity) :
    stats_step_go a d arg = (some (insertState d (sqlite_value_double arg)), none) := by
  have hfull : ¬ d.capacity ≤ d.count := by omega
  simp [stats_step_go, isNumeric_ne_null arg hn, hn, hfull, insertState]

lemma step_go_grow (d : WindowStatsData) (arg : SQLiteValue)
    (hn : arg.isNumeric = true) (hfull : d.capacity ≤ d.count) :
    stats_step_go true d arg =
      (some (insertState (grow_stats_buffer d) (sqlite_value_double arg)), none) := by
  simp [stats_step_go, isNumeric_ne_null arg hn, hn, hfull, insertState]

lemma grow_statsInv (d : WindowStatsData) (h : StatsInv d) :
    StatsInv (grow_stats_buffer d) := by
  obtain ⟨hb, hs1, hs2⟩ := h
  refine ⟨grow_bufInv d hb, ?_, ?_⟩
  · show d.sum = (logicalContents (grow_stats_buffer d)).sum
    rw [grow_contents d hb]
    exact hs1
  · show d.sum_sq = ((logicalContents (grow_stats_buffer d)).map (fun x => x * x)).sum
    rw [grow_contents d hb]
    exact hs2

lemma grow_room (d : WindowStatsData) (hb : BufInv d) :
    (grow_stats_buffer d).count < (grow_stats_buffer d).capacity := by
  show d.count < d.capacity * CAPACITY_GROWTH_FACTOR
  have h1 := hb.1
  have h2 := hb.2.1
  unfold CAPACITY_GROWTH_FACTOR
  omega

/-- The step body on an invariant-satisfying state: never loses the
context, preserves the invariant, on the success path with a numeric
argument appends exactly that value, and on every other path leaves the
state untouched. -/
lemma step_go_spec (a : Bool) (d : WindowStatsData) (arg : SQLiteValue)
    (h : StatsInv d) :
    OptStatsInv (stats_step_go a d arg).1 ∧
      ((stats_step_go a d arg).2 = none → arg.isNumeric = true →
        Option.map logicalContents (stats_step_go a d arg).1 =
          some (logicalContents d ++ [sqlite_value_double arg])) ∧
      ((stats_step_go a d arg).2 ≠ none ∨ arg.isNumeric = false →
        (stats_step_go a d arg).1 = some d) := by
  by_cases hnn : arg = SQLiteValue.null
  · subst hnn
    rw [step_go_null]
    exact ⟨h, by simp [SQLiteValue.isNumeric], fun _ => rfl⟩
  · by_cases hn : arg.isNumeric = true
    · by_cases hfull : d.capacity ≤ d.count
      · cases a
        · rw [step_go_nomem d arg hn hfull]
          exact ⟨h, by simp, fun _ => rfl⟩
        · rw [step_go_grow d arg hn hfull]
          have hgi := grow_statsInv d h
          have hins := insert_spec (grow_stats_buffer d) (sqlite_value_double arg)
            hgi (grow_room d h.1)
          refine ⟨hins.1, fun _ _ => ?_, by simp [hn]⟩
          simp [hins.2, grow_contents d h.1]
      · have hroom : d.count < d.capacity := by omega
        rw [step_go_room a d arg hn hroom]
        have hins := insert_spec d (sqlite_value_double arg) h hroom
        refine ⟨hins.1, fun _ _ => ?_, by simp [hn]⟩
        simp [hins.2]
    · have hn2 : arg.isNumeric = false := by
        cases hx : arg.isNumeric
        · rfl
        · exact absurd hx hn
      rw [step_go_invalid a d arg hnn hn2]
      exact ⟨h, by simp [hn2], fun _ => rfl⟩

lemma step_go_true_numeric (d : WindowStatsData) (arg : SQLiteValue)
    (hinv : StatsInv d) (hx : arg.isNumeric = true) :
    (stats_step_go true d arg).2 = none ∧
      OptStatsInv (stats_step_go true d arg).1 ∧
      Option.map logicalContents (stats_step_go true d arg).1 =
        some (logicalContents d ++ [sqlite_value_double arg]) := by
  by_cases hfull : d.capacity ≤ d.count
  · rw [step_go_grow d arg hx hfull]
    have hins := insert_spec (grow_stats_buffer d) (sqlite_value_double arg)
      (grow_statsInv d hinv) (grow_room d hinv.1)
    exact ⟨rfl, hins.1, by simp [hins.2, grow_contents d hinv.1]⟩
  · rw [step_go_room true d arg hx (by omega)]
    have hins := insert_spec d (sqlite_value_double arg) hinv (by omega)
    exact ⟨rfl, hins.1, by simp [hins.2]⟩

lemma inverse_remove_spec (d : WindowStatsData) (h : StatsInv d) (hpos : 0 < d.count) :
    StatsInv (removeState d) ∧
      logicalContents (removeState d) = (logicalContents d).drop 1 := by
  have hrc := remove_contents d h.1 hpos
  have hrb := remove_bufInv d h.1 hpos
  rw [remove_eq d hpos] at hrc hrb
  dsimp only at hrc hrb
  have hdrop : (logicalContents d).drop 1
      = logicalContents { d with head := (d.head + 1) % d.capacity, count := d.count - 1 } := by
    rw [hrc]
    rfl
  refine ⟨⟨hrb, ?_, ?_⟩, hdrop.symm⟩
  · show d.sum - d.values d.head
      = (logicalContents { d with head := (d.head + 1) % d.capacity, count := d.count - 1 }).sum
    have hs := h.2.1
    rw [hrc, List.sum_cons] at hs
    linarith [hs]
  · show d.sum_sq - d.values d.head * d.values d.head
      = ((logicalContents { d with head := (d.head + 1) % d.capacity, count := d.count - 1 }).map (fun x => x * x)).sum
    have hs := h.2.2
    rw [hrc, List.map_cons, List.sum_cons] at hs
    linarith [hs]

lemma inverse_spec (d : WindowStatsData) (arg : SQLiteValue) (h : StatsInv d) :
    OptStatsInv (stats_inverse (some d) arg) ∧
      Option.map logicalContents (stats_inverse (some d) arg) =
        some (modelOp (logicalContents d) (StatsOp.inverse arg)) := by
  by_cases h0 : d.count = 0
  · have hl : logicalContents d = [] := by
      unfold logicalContents
      rw [h0]
      rfl
    have heq : stats_inverse (some d) arg = some d := by
      simp [stats_inverse, h0]
    rw [heq]
    exact ⟨h, by simp [modelOp, hl]⟩
  · have hl : ¬ logicalContents d = [] := by
      intro he
      have hlen := length_logicalContents d
      rw [he] at hlen
      simp at hlen
      omega
    by_cases hnull : arg = SQLiteValue.null
    · subst hnull
      have heq : stats_inverse (some d) SQLiteValue.null = some d := by
        simp [stats_inverse, h0]
      rw [heq]
      exact ⟨h, by simp [modelOp, hl]⟩
    · have hpos : 0 < d.count := by omega
      have heq : stats_inverse (some d) arg = some (removeState d) := by
        simp only [stats_inverse]
        rw [if_neg h0, if_neg hnull, remove_eq d hpos]
        rfl
      rw [heq]
      have hins := inverse_remove_spec d h hpos
      exact ⟨hins.1, by simp [modelOp, hl, hnull, hins.2]⟩

/-! ### Run-level lemmas -/

lemma optStatsInv_runOp (c : Option WindowStatsData) (op : StatsOp)
    (h : OptStatsInv c) : OptStatsInv (runOp c op) := by
  cases op with
  | step a arg =>
      cases c with
      | none =>
          cases a
          · exact trivial
          · exact (step_go_spec true init_window_stats_data arg statsInv_init).1
      | some d => exact (step_go_spec a d arg h).1
  | inverse arg =>
      cases c with
      | none => exact trivial
      | some d => exact (inverse_spec d arg h).1

lemma optStatsInv_foldl (ops : List StatsOp) :
    ∀ c, OptStatsInv c → OptStatsInv (ops.foldl runOp c) := by
  induction ops with
  | nil => exact fun c h => h
  | cons op rest ih =>
      intro c h
      exact ih (runOp c op) (optStatsInv_runOp c op h)

lemma optStatsInv_runOps (ops : List StatsOp) : OptStatsInv (runOps ops) :=
  optStatsInv_foldl ops none trivial

lemma stateOK_runOp (c : Option WindowStatsData) (l : List ℚ) (op : StatsOp)
    (hok : op.allocOk = true) (h : StateOK c l) :
    StateOK (runOp c op) (modelOp l op) := by
  cases op with
  | step a arg =>
      have ha : a = true := hok
      subst ha
      cases c with
      | none =>
          have hl : l = [] := h
          subst hl
          show StateOK (stats_step_go true init_window_stats_data arg).1
            (modelOp [] (StatsOp.step true arg))
          by_cases hx : arg.isNumeric = true
          · obtain ⟨h1, h2, h3⟩ :=
              step_go_true_numeric init_window_stats_data arg statsInv_init hx
            cases hy : (stats_step_go true init_window_stats_data arg).1 with
            | none => rw [hy] at h3; simp at h3
            | some s =>
                rw [hy] at h2 h3
                simp only [Option.map_some'] at h3
                refine ⟨h2, ?_⟩
                simp only [modelOp, hx, if_true]
                simpa using h3
          · have hn2 : arg.isNumeric = false := by
              cases hxx : arg.isNumeric
              · rfl
              · exact absurd hxx hx
            have heq : (stats_step_go true init_window_stats_data arg).1
                = some init_window_stats_data :=
              (step_go_spec true init_window_stats_data arg statsInv_init).2.2 (Or.inr hn2)
            rw [heq]
            exact ⟨statsInv_init, by simp [modelOp, hn2, logicalContents, init_window_stats_data]⟩
      | some d =>
          obtain ⟨hinv, hcont⟩ := h
          show StateOK (stats_step_go true d arg).1 (modelOp l (StatsOp.step true arg))
          by_cases hx : arg.isNumeric = true
          · obtain ⟨h1, h2, h3⟩ := step_go_true_numeric d arg hinv hx
            cases hy : (stats_step_go true d arg).1 with
            | none => rw [hy] at h3; simp at h3
            | some s =>
                rw [hy] at h2 h3
                simp only [Option.map_some'] at h3
                refine ⟨h2, ?_⟩
                simp only [modelOp, hx, if_true]
                rw [← hcont]
                simpa using h3
          · have hn2 : arg.isNumeric = false := by
              cases hxx : arg.isNumeric
              · rfl
              · exact absurd hxx hx
            have heq : (stats_step_go true d arg).1 = some d :=
              (step_go_spec true d arg hinv).2.2 (Or.inr hn2)
            rw [heq]
            exact ⟨hinv, by simp [modelOp, hn2, hcont]⟩
  | inverse arg =>
      cases c with
      | none =>
          have hl : l = [] := h
          subst hl
          show modelOp [] (StatsOp.inverse arg) = []
          simp [modelOp]
      | some d =>
          obtain ⟨hinv, hcont⟩ := h
          obtain ⟨h1, h2⟩ := inverse_spec d arg hinv
          show StateOK (stats_inverse (some d) arg) (modelOp l (StatsOp.inverse arg))
          cases hy : stats_inverse (some d) arg with
          | none => rw [hy] at h2; simp at h2
          | some s =>
              rw [hy] at h1 h2
              simp only [Option.map_some'] at h2
              refine ⟨h1, ?_⟩
              rw [← hcont]
              simpa using h2

lemma stateOK_foldl (ops : List StatsOp) :
    ∀ c l, (∀ op ∈ ops, op.allocOk = true) → StateOK c l →
      StateOK (ops.foldl runOp c) (ops.foldl modelOp l) := by
  induction ops with
  | nil => exact fun c l _ h => h
  | cons op rest ih =>
      intro c l hok h
      simp only [List.foldl_cons]
      exact ih (runOp c op) (modelOp l op)
        (fun o ho => hok o (List.mem_cons_of_mem op ho))
        (stateOK_runOp c l op (hok op (List.mem_cons_self op rest)) h)

lemma stateOK_runOps (ops : List StatsOp) (hok : ∀ op ∈ ops, op.allocOk = true) :
    StateOK (runOps ops) (modelRun ops) :=
  stateOK_foldl ops none [] hok rfl

/-! ### Variance algebra lemmas -/

lemma sum_sub_sq (l : List ℚ) (m : ℚ) :
    (l.map (fun x => (x - m) ^ 2)).sum
      = (l.map (fun x => x * x)).sum - 2 * m * l.sum + (l.length : ℚ) * m ^ 2 := by
  induction l with
  | nil => simp
  | cons a t ih =>
      simp only [List.map_cons, List.sum_cons, List.length_cons, ih]
      push_cast
      ring

lemma variance_pop_eq (d : WindowStatsData) (hs : SumInv d) (hc : 1 ≤ d.count) :
    variance_pop_value (some d) = some (directVariancePop (logicalContents d)) := by
  have hn0 : (d.count : ℚ) ≠ 0 := Nat.cast_ne_zero.mpr (by omega)
  simp only [variance_pop_value, stats_value_helper, calculate_variance_population,
    directVariancePop]
  rw [if_neg (by omega : ¬ d.count < 1), if_neg (by omega : ¬ d.count < 1)]
  rw [hs.1, hs.2, length_logicalContents, sum_sub_sq, length_logicalContents]
  congr 1
  field_simp
  ring

lemma variance_samp_eq (d : WindowStatsData) (hs : SumInv d) (hc : 2 ≤ d.count) :
    variance_samp_value (some d) = some (directVarianceSample (logicalContents d)) := by
  have hn0 : (d.count : ℚ) ≠ 0 := Nat.cast_ne_zero.mpr (by omega)
  have h2 : (2 : ℚ) ≤ (d.count : ℚ) := by exact_mod_cast hc
  have hn1 : (d.count : ℚ) - 1 ≠ 0 := ne_of_gt (by linarith)
  simp only [variance_samp_value, stats_value_helper, calculate_variance_sample,
    directVarianceSample]
  rw [if_neg (by omega : ¬ d.count < 2), if_neg (by omega : ¬ d.count < 2)]
  rw [hs.1, hs.2, length_logicalContents, sum_sub_sq, length_logicalContents]
  congr 1
  field_simp
  ring

/-! ### Extended-double value lemmas -/

lemma valueD_eq (func : WindowStatsData → EDouble) (min_count : ℕ)
    (hmin : ∀ d, d.count < min_count → func d = EDouble.nan)
    (d : WindowStatsData) :
    stats_value_helperD func min_count (some d) = set_resultD (func d) := by
  simp only [stats_value_helperD]
  by_cases hc : d.count < min_count
  · rw [if_pos hc, hmin d hc]
    rfl
  · rw [if_neg hc]

lemma varianceD_nan_of_lt (d : WindowStatsData) (hc : d.count < 2) :
    calculate_variance_sampleD d = EDouble.nan := by
  simp [calculate_variance_sampleD, hc]

lemma variancePopD_nan_of_lt (d : WindowStatsData) (hc : d.count < 1) :
    calculate_variance_populationD d = EDouble.nan := by
  simp [calculate_variance_populationD, hc]

lemma stddevD_nan_of_lt (d : WindowStatsData) (hc : d.count < 2) :
    calculate_stddev_sampleD d = EDouble.nan := by
  simp [calculate_stddev_sampleD, varianceD_nan_of_lt d hc]

lemma stddevPopD_nan_of_lt (d : WindowStatsData) (hc : d.count < 1) :
    calculate_stddev_populationD d = EDouble.nan := by
  simp [calculate_stddev_populationD, variancePopD_nan_of_lt d hc]

lemma sanitize_spec (func : WindowStatsData → EDouble) (min_count : ℕ)
    (hmin : ∀ d, d.count < min_count → func d = EDouble.nan) (d : WindowStatsData) :
    ((func d = EDouble.nan ∨ ∃ b, func d = EDouble.inf b) →
        stats_value_helperD func min_count (some d) = none) ∧
      (∀ x, func d = EDouble.finite x →
        stats_value_helperD func min_count (some d) = some x) := by
  have e := valueD_eq func min_count hmin d
  constructor
  · rintro (hn | ⟨b, hb⟩)
    · rw [e, hn]
      rfl
    · rw [e, hb]
      rfl
  · intro x hx
    rw [e, hx]
    rfl

/-! ### Evaluation lemmas for the concrete example states -/

lemma exState1_contents : logicalContents exState1 = [7] := by
  norm_num [logicalContents, exState1, get_circular_value, List.range_succ]

lemma statsInv_exState1 : StatsInv exState1 := by
  refine ⟨by decide, ?_, ?_⟩
  · show exState1.sum = (logicalContents exState1).sum
    rw [exState1_contents]
    norm_num [exState1]
  · show exState1.sum_sq = ((logicalContents exState1).map (fun x => x * x)).sum
    rw [exState1_contents]
    norm_num [exState1]

lemma exState2_contents : logicalContents exState2 = [1, 3] := by
  norm_num [logicalContents, exState2, get_circular_value, List.range_succ]

lemma statsInv_exState2 : StatsInv exState2 := by
  refine ⟨by decide, ?_, ?_⟩
  · show exState2.sum = (logicalContents exState2).sum
    rw [exState2_contents]
    norm_num [exState2]
  · show exState2.sum_sq = ((logicalContents exState2).map (fun x => x * x)).sum
    rw [exState2_contents]
    norm_num [exState2]

lemma exFullState_contents : logicalContents exFullState = [1, 2] := by
  norm_num [logicalContents, exFullState, get_circular_value, List.range_succ]

lemma statsInv_exFullState : StatsInv exFullState := by
  refine ⟨by decide, ?_, ?_⟩
  · show exFullState.sum = (logicalContents exFullState).sum
    rw [exFullState_contents]
    norm_num [exFullState]
  · show exFullState.sum_sq = ((logicalContents exFullState).map (fun x => x * x)).sum
    rw [exFullState_contents]
    norm_num [exFullState]

lemma directVarianceSample_13 : directVarianceSample [1, 3] = 2 := by
  norm_num [directVarianceSample]

lemma directVariancePop_2345 : directVariancePop [2, 3, 4, 5] = 5 / 4 := by
  norm_num [directVariancePop]

lemma opsSlide_model : modelRun opsSlide = [2, 3, 4, 5] := by decide

/-! ### Claim theorems -/

/-- Claim C1: for every sequence of insert and evict operations starting
from the empty aggregator, the aggregator's sum field equals the exact
sum of the values currently stored in the circular buffer and its sum_sq
field equals the exact sum of their squares; every step and every
inverse preserves this invariant. -/
theorem claim_C1_sum_invariant (ops : List StatsOp) : SumOK (runOps ops) := by
  have h := optStatsInv_runOps ops
  cases hy : runOps ops with
  | none => exact trivial
  | some d =>
      rw [hy] at h
      exact ⟨h.2.1, h.2.2⟩

/-- Claim C2: for every buffered multiset of n values with n at least 2
(a state satisfying the aggregator invariant), the sample variance query
returns exactly the direct textbook value of Σ(x − mean)²/(n − 1) over
those same n values. -/
theorem claim_C2_sample_variance_direct (d : WindowStatsData) (h : StatsInv d)
    (hc : 2 ≤ d.count) :
    variance_samp_value (some d) = some (directVarianceSample (logicalContents d)) :=
  variance_samp_eq d h.2 hc

/-- Witness for claim C2 on the concrete state holding the values 1 and
3: the query returns the textbook sample variance 2. -/
theorem claim_C2_witness :
    StatsInv exState2 ∧ 2 ≤ exState2.count ∧
      variance_samp_value (some exState2) = some 2 :=
  ⟨statsInv_exState2, by decide,
    (claim_C2_sample_variance_direct exState2 statsInv_exState2 (by decide)).trans
      (by rw [exState2_contents, directVarianceSample_13])⟩

/-- Claim C3: for every interleaving of successful step and inverse
operations, the circular buffer holds exactly the values of the
reference FIFO queue (eviction is strictly first-in-first-out, including
across wrap-around), and when at least one value remains the population
variance query returns the direct computation over exactly those
oldest-to-newest values. -/
theorem claim_C3_fifo_pop_variance (ops : List StatsOp)
    (hok : ∀ op ∈ ops, op.allocOk = true) :
    (∀ d, runOps ops = some d → logicalContents d = modelRun ops) ∧
      (1 ≤ (modelRun ops).length →
        variance_pop_value (runOps ops) = some (directVariancePop (modelRun ops))) := by
  have h := stateOK_runOps ops hok
  constructor
  · intro d hd
    rw [hd] at h
    exact h.2
  · intro hlen
    cases hy : runOps ops with
    | none =>
        rw [hy] at h
        rw [h] at hlen
        simp at hlen
    | some d =>
        rw [hy] at h
        obtain ⟨hinv, hcont⟩ := h
        have hlc := length_logicalContents d
        rw [hcont] at hlc
        have hc : 1 ≤ d.count := by omega
        show variance_pop_value (some d) = _
        rw [variance_pop_eq d hinv.2 hc, hcont]

/-- Witness for claim C3 on the sliding-window scenario: insert 1..5
then evict the oldest; the population variance over the remaining
contents 2, 3, 4, 5 is exactly 5/4. -/
theorem claim_C3_witness :
    (∀ op ∈ opsSlide, op.allocOk = true) ∧
      variance_pop_value (runOps opsSlide) = some (5 / 4) :=
  ⟨by decide,
    ((claim_C3_fifo_pop_variance opsSlide (by decide)).2
        (by rw [opsSlide_model]; decide)).trans
      (by rw [opsSlide_model, directVariancePop_2345])⟩

/-- Claim C4: the sample variance and sample stddev queries return the
null marker whenever 0 or 1 values are buffered (including the
uninitialized context); the population variance and population stddev
queries return null whenever 0 values are buffered; and with exactly one
buffered value the population variance is defined and equals 0. -/
theorem claim_C4_minimum_counts :
    (variance_samp_value none = none ∧ stddev_samp_valueD none = none ∧
        variance_pop_value none = none ∧ stddev_pop_valueD none = none) ∧
      (∀ d : WindowStatsData, d.count ≤ 1 →
        variance_samp_value (some d) = none ∧ stddev_samp_valueD (some d) = none) ∧
      (∀ d : WindowStatsData, d.count = 0 →
        variance_pop_value (some d) = none ∧ stddev_pop_valueD (some d) = none) ∧
      (∀ d : WindowStatsData, StatsInv d → d.count = 1 →
        variance_pop_value (some d) = some 0) := by
  refine ⟨⟨rfl, rfl, rfl, rfl⟩, ?_, ?_, ?_⟩
  · intro d hd
    constructor
    · simp only [variance_samp_value, stats_value_helper]
      rw [if_pos (by omega)]
    · simp only [stddev_samp_valueD, stats_value_helperD]
      rw [if_pos (by omega)]
  · intro d hd
    constructor
    · simp only [variance_pop_value, stats_value_helper]
      rw [if_pos (by omega)]
    · simp only [stddev_pop_valueD, stats_value_helperD]
      rw [if_pos (by omega)]
  · intro d h h1
    have hl : logicalContents d = [get_circular_value d 0] := by
      unfold logicalContents
      rw [h1]
      rfl
    have hsum := h.2.1
    have hsq := h.2.2
    rw [hl] at hsum hsq
    simp at hsum hsq
    simp only [variance_pop_value, stats_value_helper, calculate_variance_population]
    rw [if_neg (by omega), if_neg (by omega)]
    rw [hsum, hsq, h1]
    norm_num

/-- Witness for claim C4 at the empty initialized state and at the
concrete one-value state: the sample variance query is null on the empty
buffer, and the population variance of the single value 7 is 0. -/
theorem claim_C4_witness :
    init_window_stats_data.count ≤ 1 ∧ StatsInv exState1 ∧ exState1.count = 1 ∧
      variance_samp_value (some init_window_stats_data) = none ∧
      variance_pop_value (some exState1) = some 0 :=
  ⟨by decide, statsInv_exState1, by decide,
    (claim_C4_minimum_counts.2.1 init_window_stats_data (by decide)).1,
    claim_C4_minimum_counts.2.2.2 exState1 statsInv_exState1 (by decide)⟩

/-- Claim C5: for every aggregator state, if the statistic computed by
any of the four query operations is NaN or infinite, the reported result
is the null marker, never a NaN or infinite numeric value; a finite
computed value is reported as that number. -/
theorem claim_C5_result_sanitization (d : WindowStatsData) :
    (((calculate_stddev_sampleD d = EDouble.nan ∨
          ∃ b, calculate_stddev_sampleD d = EDouble.inf b) →
        stddev_samp_valueD (some d) = none) ∧
      (∀ x, calculate_stddev_sampleD d = EDouble.finite x →
        stddev_samp_valueD (some d) = some x)) ∧
    (((calculate_stddev_populationD d = EDouble.nan ∨
          ∃ b, calculate_stddev_populationD d = EDouble.inf b) →
        stddev_pop_valueD (some d) = none) ∧
      (∀ x, calculate_stddev_populationD d = EDouble.finite x →
        stddev_pop_valueD (some d) = some x)) ∧
    (((calculate_variance_sampleD d = EDouble.nan ∨
          ∃ b, calculate_variance_sampleD d = EDouble.inf b) →
        variance_samp_valueD (some d) = none) ∧
      (∀ x, calculate_variance_sampleD d = EDouble.finite x →
        variance_samp_valueD (some d) = some x)) ∧
    (((calculate_variance_populationD d = EDouble.nan ∨
          ∃ b, calculate_variance_populationD d = EDouble.inf b) →
        variance_pop_valueD (some d) = none) ∧
      (∀ x, calculate_variance_populationD d = EDouble.finite x →
        variance_pop_valueD (some d) = some x)) :=
  ⟨sanitize_spec calculate_stddev_sampleD 2 stddevD_nan_of_lt d,
    sanitize_spec calculate_stddev_populationD 1 stddevPopD_nan_of_lt d,
    sanitize_spec calculate_variance_sampleD 2 varianceD_nan_of_lt d,
    sanitize_spec calculate_variance_populationD 1 variancePopD_nan_of_lt d⟩

lemma exNanState_stddev_nan : calculate_stddev_populationD exNanState = EDouble.nan := by
  have hv : calculate_variance_populationD exNanState = EDouble.finite (-1) := by
    simp [calculate_variance_populationD, exNanState]
  rw [calculate_stddev_populationD, hv]
  simp [sqrtD]

/-- Witness for claim C5: on a state whose computed population variance
is -1, the population standard deviation computation is NaN and the
query reports the null marker. -/
theorem claim_C5_witness :
    calculate_stddev_populationD exNanState = EDouble.nan ∧
      stddev_pop_valueD (some exNanState) = none :=
  ⟨exNanState_stddev_nan,
    (claim_C5_result_sanitization exNanState).2.1.1 (Or.inl exNanState_stddev_nan)⟩

lemma exNegState_variance :
    calculate_variance_population exNegState = some (-(1 / 10 ^ 17)) := by
  simp only [calculate_variance_population, exNegState]
  norm_num

/-- Counterexample to claim C6 as stated: on a state whose buffered
value is 1 but whose sum_sq accumulator has absorbed a rounding error
of one part in 10^17, the computed population variance is the small
negative number -(1/10^17), and the population variance query reports
exactly that negative number rather than the null marker: set_result
only maps NaN and infinite values to null, and a finite negative double
is neither. -/
theorem claim_C6_counterexample :
    calculate_variance_population exNegState = some (-(1 / 10 ^ 17)) ∧
      (-(1 / 10 ^ 17) : ℚ) < 0 ∧
      variance_pop_value (some exNegState) = some (-(1 / 10 ^ 17)) ∧
      variance_pop_value (some exNegState) ≠ none := by
  refine ⟨exNegState_variance, by norm_num, ?_, ?_⟩
  · simp only [variance_pop_value, stats_value_helper]
    rw [if_neg (by decide)]
    exact exNegState_variance
  · simp only [variance_pop_value, stats_value_helper]
    rw [if_neg (by decide), exNegState_variance]
    simp

/-- Claim C6 as amended: for buffer contents that force the computed
variance to be a small negative number, the variance query operations
report that negative number itself, not the null marker; only NaN and
infinite results are sanitized to null. -/
theorem claim_C6_amended :
    (∀ (d : WindowStatsData) (q : ℚ), calculate_variance_population d = some q →
        q < 0 → variance_pop_value (some d) = some q ∧
          variance_pop_value (some d) ≠ none) ∧
      (∀ (d : WindowStatsData) (q : ℚ), calculate_variance_sample d = some q →
        q < 0 → variance_samp_value (some d) = some q ∧
          variance_samp_value (some d) ≠ none) := by
  constructor
  · intro d q hq _
    have hc : ¬ d.count < 1 := by
      intro hc
      rw [calculate_variance_population, if_pos hc] at hq
      exact Option.noConfusion hq
    constructor
    · simp only [variance_pop_value, stats_value_helper]
      rw [if_neg hc]
      exact hq
    · simp only [variance_pop_value, stats_value_helper]
      rw [if_neg hc, hq]
      simp
  · intro d q hq _
    have hc : ¬ d.count < 2 := by
      intro hc
      rw [calculate_variance_sample, if_pos hc] at hq
      exact Option.noConfusion hq
    constructor
    · simp only [variance_samp_value, stats_value_helper]
      rw [if_neg hc]
      exact hq
    · simp only [variance_samp_value, stats_value_helper]
      rw [if_neg hc, hq]
      simp

/-- Witness for the amended claim C6 at the concrete rounding state. -/
theorem claim_C6_witness :
    calculate_variance_population exNegState = some (-(1 / 10 ^ 17)) ∧
      (-(1 / 10 ^ 17) : ℚ) < 0 ∧
      variance_pop_value (some exNegState) = some (-(1 / 10 ^ 17)) :=
  ⟨exNegState_variance, by norm_num,
    (claim_C6_amended.1 exNegState (-(1 / 10 ^ 17)) exNegState_variance
      (by norm_num)).1⟩

set_option maxRecDepth 10000 in
/-- Claim C7: when an insert occurs with count equal to capacity, the
growth event produces a buffer of capacity 2C with the logical elements
copied into physical slots 0..N-1 in logical order, head 0 and tail N,
and every logical read returns the same value as before growth; and
inserting 101 values against the initial capacity 100 triggers exactly
one growth event, after which the buffer holds the 101 inserted values
in insertion order. -/
theorem claim_C7_growth_transparency :
    (∀ d : WindowStatsData, StatsInv d → d.count = d.capacity →
        (grow_stats_buffer d).capacity = CAPACITY_GROWTH_FACTOR * d.capacity ∧
          (grow_stats_buffer d).head = 0 ∧
          (grow_stats_buffer d).tail = d.count ∧
          (grow_stats_buffer d).count = d.count ∧
          (∀ i, i < d.count → (grow_stats_buffer d).values i = get_circular_value d i) ∧
          (∀ i, i < d.count →
            get_circular_value (grow_stats_buffer d) i = get_circular_value d i) ∧
          logicalContents (grow_stats_buffer d) = logicalContents d) ∧
      growthCount ops101 = 1 ∧
      Option.map WindowStatsData.capacity (runOps ops101) =
        some (CAPACITY_GROWTH_FACTOR * INITIAL_CAPACITY) ∧
      Option.map logicalContents (runOps ops101) =
        some ((List.range 101).map (fun i => ((i : ℤ) : ℚ))) := by
  refine ⟨?_, by decide, by decide, by decide⟩
  intro d h hfull
  have hcap : 0 < d.capacity := h.1.1
  have hcap2 : d.capacity < d.capacity * CAPACITY_GROWTH_FACTOR := by
    unfold CAPACITY_GROWTH_FACTOR
    omega
  refine ⟨Nat.mul_comm _ _, rfl, rfl, rfl, ?_, ?_, grow_contents d h.1⟩
  · intro i hi
    show (if i < d.count then get_circular_value d i else 0) = get_circular_value d i
    rw [if_pos hi]
  · intro i hi
    show (if (0 + i) % (d.capacity * CAPACITY_GROWTH_FACTOR) < d.count
        then get_circular_value d ((0 + i) % (d.capacity * CAPACITY_GROWTH_FACTOR))
        else 0) = get_circular_value d i
    rw [Nat.zero_add, Nat.mod_eq_of_lt (by omega), if_pos hi]

/-- Witness for claim C7 at the concrete full two-element buffer: growth
preserves the logical contents. -/
theorem claim_C7_witness :
    StatsInv exFullState ∧ exFullState.count = exFullState.capacity ∧
      logicalContents (grow_stats_buffer exFullState) = logicalContents exFullState :=
  ⟨statsInv_exFullState, by decide,
    (claim_C7_growth_transparency.1 exFullState statsInv_exFullState
      (by decide)).2.2.2.2.2.2⟩

/-- Claim C8: if the allocation performed during buffer growth fails,
the step reports out-of-memory and returns the aggregator in exactly its
prior state; the failed insert is never partially applied. -/
theorem claim_C8_oom_leaves_state (d : WindowStatsData) (arg : SQLiteValue)
    (hn : arg.isNumeric = true) (hfull : d.capacity ≤ d.count) :
    stats_step false (some d) arg = (some d, some StepError.outOfMemory) :=
  step_go_nomem d arg hn hfull

/-- Witness for claim C8 at the concrete full buffer with a numeric
argument. -/
theorem claim_C8_witness :
    (SQLiteValue.float 7).isNumeric = true ∧
      exFullState.capacity ≤ exFullState.count ∧
      stats_step false (some exFullState) (SQLiteValue.float 7)
        = (some exFullState, some StepError.outOfMemory) :=
  ⟨by decide, by decide,
    claim_C8_oom_leaves_state exFullState (SQLiteValue.float 7) (by decide) (by decide)⟩

/-- Claim C9: a step with a NULL argument is a silent no-op (no error,
nothing inserted); a step with a present non-numeric argument fails with
the invalid-input error; a step with a numeric argument inserts exactly
that value. -/
theorem claim_C9_step_contract (a : Bool) (d : WindowStatsData) (h : StatsInv d) :
    stats_step a (some d) SQLiteValue.null = (some d, none) ∧
      stats_step a (some d) SQLiteValue.text = (some d, some StepError.invalidInput) ∧
      stats_step a (some d) SQLiteValue.blob = (some d, some StepError.invalidInput) ∧
      (∀ arg : SQLiteValue, arg.isNumeric = true →
        (stats_step true (some d) arg).2 = none ∧
          Option.map logicalContents (stats_step true (some d) arg).1 =
            some (logicalContents d ++ [sqlite_value_double arg])) := by
  refine ⟨rfl, ?_, ?_, ?_⟩
  · exact step_go_invalid a d SQLiteValue.text (by simp) rfl
  · exact step_go_invalid a d SQLiteValue.blob (by simp) rfl
  · intro arg hn
    have hspec := step_go_true_numeric d arg h hn
    exact ⟨hspec.1, hspec.2.2⟩

/-- Witness for claim C9 at the concrete two-element state: NULL leaves
the state and reports no error, and inserting the float 7 appends 7. -/
theorem claim_C9_witness :
    StatsInv exState2 ∧
      stats_step true (some exState2) SQLiteValue.null = (some exState2, none) ∧
      Option.map logicalContents (stats_step true (some exState2) (SQLiteValue.float 7)).1
        = some [1, 3, 7] :=
  ⟨statsInv_exState2, (claim_C9_step_contract true exState2 statsInv_exState2).1,
    ((claim_C9_step_contract true exState2 statsInv_exState2).2.2.2
        (SQLiteValue.float 7) (by decide)).2.trans
      (by rw [exState2_contents]; rfl)⟩

/-- Claim C10: a step whose argument is present but non-numeric reports
the invalid-input error and leaves the aggregator state completely
unchanged, for every state including a full buffer: the type check runs
after context initialization but before any growth, buffer write, or
accumulator update. -/
theorem claim_C10_invalid_input_atomic (a : Bool) (d : WindowStatsData)
    (arg : SQLiteValue) (harg : arg = SQLiteValue.text ∨ arg = SQLiteValue.blob) :
    stats_step a (some d) arg = (some d, some StepError.invalidInput) ∧
      stats_step true none arg
        = (some init_window_stats_data, some StepError.invalidInput) := by
  rcases harg with h | h <;> subst h
  · exact ⟨step_go_invalid a d SQLiteValue.text (by simp) rfl,
      step_go_invalid true init_window_stats_data SQLiteValue.text (by simp) rfl⟩
  · exact ⟨step_go_invalid a d SQLiteValue.blob (by simp) rfl,
      step_go_invalid true init_window_stats_data SQLiteValue.blob (by simp) rfl⟩

/-- Witness for claim C10 at the concrete full buffer: a text argument
is rejected with invalid-input and the state, although full, is
untouched (no growth, no write). -/
theorem claim_C10_witness :
    stats_step true (some exFullState) SQLiteValue.text
      = (some exFullState, some StepError.invalidInput) :=
  (claim_C10_invalid_input_atomic true exFullState SQLiteValue.text (Or.inl rfl)).1

end StddevExt
